import Mathlib

/- Verification of the agentpriv permission-gating core (core.py): policy
   resolution over glob patterns, the guard wrapper, and guard_all. -/

namespace AgentPriv

/-- Valid policy strings, mirroring VALID_POLICIES in core.py. -/
def VALID_POLICIES : List String := ["allow", "deny", "ask"]

/-- All suffixes of a character list, longest first, ending with the empty list. -/
def suffixes : List Char → List (List Char)
  | [] => [[]]
  | c :: cs => (c :: cs) :: suffixes cs

/-- Shell-glob matching of a pattern (first argument) against a string (second
argument): a star matches any character sequence, a question mark matches any
single character, and every other character matches itself. This models the
fnmatch dependency of core.py on the star and question-mark pattern language the
repository uses (character classes are not modelled). -/
def globMatch : List Char → List Char → Bool
  | [], s => s.isEmpty
  | '*' :: ps, s => (suffixes s).any fun t => globMatch ps t
  | '?' :: ps, s =>
    match s with
    | [] => false
    | _ :: cs => globMatch ps cs
  | p :: ps, s =>
    match s with
    | [] => false
    | c :: cs => p == c && globMatch ps cs

/-- fnmatch(name, pattern), as called in core.py. -/
def fnmatch (name pattern : String) : Bool :=
  globMatch pattern.data name.data

/-- Number of non-wildcard characters of a pattern: the length of the pattern
after removing every star and question mark, as computed in core.py. -/
def specificity (pattern : String) : Nat :=
  (pattern.data.filter fun c => c != '*' && c != '?').length

/-- Comparison of a candidate specificity against the best specificity so far;
none stands for the initial negative-infinity value, which every candidate
beats. -/
def specGt (s : Nat) : Option Nat → Bool
  | none => true
  | some b => decide (b < s)

/-- A policy specification: either a single policy string or an ordered mapping
from glob patterns to policy strings (a Python dict iterates in insertion
order). -/
inductive PolicySpec where
  | single (p : String)
  | mapping (m : List (String × String))

/-- The pattern-mapping loop of the policy resolver in core.py, threading the
best policy and best specificity found so far; an invalid policy value raises
ValueError, modelled as Except.error. -/
def resolveLoop (name : String) : List (String × String) → String → Option Nat → Except String String
  | [], best, _ => Except.ok best
  | (pattern, pol) :: rest, best, bestSpec =>
    if pol ∉ VALID_POLICIES then
      Except.error ("Invalid policy " ++ pol ++ " for pattern " ++ pattern)
    else if fnmatch name pattern then
      if specGt (specificity pattern) bestSpec then
        resolveLoop name rest pol (some (specificity pattern))
      else
        resolveLoop name rest best bestSpec
    else
      resolveLoop name rest best bestSpec

/-- The policy resolver of core.py: a single policy string is validated and
returned; a mapping is scanned for the most specific matching pattern, starting
from the fail-closed default deny. -/
def _resolve_policy (name : String) (policy : PolicySpec) : Except String String :=
  match policy with
  | PolicySpec.single p =>
    if p ∉ VALID_POLICIES then Except.error ("Invalid policy " ++ p)
    else Except.ok p
  | PolicySpec.mapping m => resolveLoop name m "deny" none

/-- A Python callable as guard sees it: introspectable name and docstring,
whether it is a coroutine function, and its call behavior, which either returns
a value or raises an error. -/
structure PyFun (α ε β : Type) where
  name : String
  doc : Option String
  isCoroutine : Bool
  call : α → Except ε β

/-- Observable events of one call to a guard wrapper: consulting the
human-approval collaborator with the operation name and the call arguments, or
invoking the wrapped operation with the call arguments. -/
inductive Event (α : Type) where
  | askHuman (name : String) (a : α)
  | invoke (a : α)
deriving DecidableEq

/-- Outcome of one call to a guard wrapper: a normal result, a denial string
returned as the ordinary result (on_deny return), a raised AgentPrivDenied
failure (on_deny raise), or an error raised by the wrapped operation itself. -/
inductive Outcome (ε β : Type) where
  | ok (b : β)
  | deniedReturn (msg : String)
  | raisedDenied (msg : String)
  | raised (e : ε)
deriving DecidableEq

/-- The denial message built by the denial helper in core.py. -/
def deniedMessage (name reason : String) : String :=
  "Call to " ++ name ++ "() denied by " ++ reason

/-- The denial helper of core.py: with on_deny return the message becomes the
ordinary result, otherwise AgentPrivDenied is raised with the message. -/
def deniedOutcome {ε β : Type} (on_deny name reason : String) : Outcome ε β :=
  if on_deny == "return" then Outcome.deniedReturn (deniedMessage name reason)
  else Outcome.raisedDenied (deniedMessage name reason)

/-- Lift the wrapped operation's own result into a wrapper outcome: values pass
through and raised errors propagate unchanged. -/
def liftResult {ε β : Type} : Except ε β → Outcome ε β
  | Except.ok b => Outcome.ok b
  | Except.error e => Outcome.raised e

/-- One call to the wrapper body built by guard in core.py for a fixed resolved
policy. The event list records the collaborator consultation (which happens
exactly when the resolved policy is ask) and the underlying invocation; the
sync and async wrapper bodies of core.py share this logic, differing only in
the invocation contract recorded by isCoroutine. -/
def wrapperRun {α ε β : Type} (resolved on_deny name : String)
    (call : α → Except ε β) (ask : String → α → Bool) (a : α) :
    List (Event α) × Outcome ε β :=
  if resolved == "deny" then
    ([], deniedOutcome on_deny name "policy")
  else if resolved == "ask" && !(ask name a) then
    ([Event.askHuman name a], deniedOutcome on_deny name "human")
  else
    ((if resolved == "ask" then [Event.askHuman name a] else []) ++ [Event.invoke a],
      liftResult (call a))

/-- The wrapper returned by guard: the functools.wraps metadata (name, doc),
the preserved coroutine-ness, and the per-call behavior given an approval
collaborator. -/
structure GuardedFun (α ε β : Type) where
  name : String
  doc : Option String
  isCoroutine : Bool
  run : (String → α → Bool) → α → List (Event α) × Outcome ε β

/-- guard from core.py: validates on_deny, resolves the policy eagerly at wrap
time, and returns the wrapper; construction failures are ValueError, modelled
as Except.error. -/
def guard {α ε β : Type} (fn : PyFun α ε β) (policy : PolicySpec) (on_deny : String) :
    Except String (GuardedFun α ε β) :=
  if on_deny ∉ (["raise", "return"] : List String) then
    Except.error ("Invalid on_deny " ++ on_deny)
  else
    match _resolve_policy fn.name policy with
    | Except.error e => Except.error e
    | Except.ok resolved =>
      Except.ok ⟨fn.name, fn.doc, fn.isCoroutine, wrapperRun resolved on_deny fn.name fn.call⟩

/-- The list comprehension in guard_all: wrap each callable in order with the
default on_deny of guard, propagating the first construction error. -/
def guardList {α ε β : Type} (policy : PolicySpec) :
    List (PyFun α ε β) → Except String (List (GuardedFun α ε β))
  | [] => Except.ok []
  | fn :: rest =>
    match guard fn policy "raise" with
    | Except.error e => Except.error e
    | Except.ok g =>
      match guardList policy rest with
      | Except.error e => Except.error e
      | Except.ok gs => Except.ok (g :: gs)

/-- The None default of guard_all in core.py: a missing policy becomes the
mapping from the star pattern to ask. -/
def defaultedPolicy : Option PolicySpec → PolicySpec
  | none => PolicySpec.mapping [("*", "ask")]
  | some p => p

/-- guard_all from core.py. -/
def guard_all {α ε β : Type} (fns : List (PyFun α ε β)) (policy : Option PolicySpec) :
    Except String (List (GuardedFun α ε β)) :=
  guardList (defaultedPolicy policy) fns

/-- Number of invocations of the wrapped operation recorded in a trace. -/
def invokeCount {α : Type} (tr : List (Event α)) : Nat :=
  (tr.filter fun e => match e with | Event.invoke _ => true | _ => false).length

/-- The collaborator-consultation events of a trace, in order. -/
def askEvents {α : Type} (tr : List (Event α)) : List (Event α) :=
  tr.filter fun e => match e with | Event.askHuman _ _ => true | _ => false

/-- Error-free restatement of the resolver loop, used to reason about mappings
whose values are all valid. -/
def resolveLoopPure (name : String) : List (String × String) → String → Option Nat → String
  | [], best, _ => best
  | (pattern, pol) :: rest, best, bestSpec =>
    if fnmatch name pattern && specGt (specificity pattern) bestSpec then
      resolveLoopPure name rest pol (some (specificity pattern))
    else
      resolveLoopPure name rest best bestSpec

/-- Sample immediate operation mirroring send_message in the tests. -/
def sampleSend : PyFun (String × String) String String :=
  ⟨"send_message", some "Send a message.", false,
    fun a => Except.ok ("sent to " ++ a.1 ++ ": " ++ a.2)⟩

/-- Sample immediate operation mirroring delete_channel in the tests. -/
def sampleTracked : PyFun Unit String Nat :=
  ⟨"delete_channel", none, false, fun _ => Except.ok 1⟩

/-- Sample suspending operation mirroring async_delete in the tests. -/
def sampleAsync : PyFun Unit String String :=
  ⟨"async_delete", some "Delete asynchronously.", true, fun _ => Except.ok "async deleted"⟩

/-- The wrapper guard builds for sampleSend under the single policy ask with
on_deny raise. -/
def sampleSendAsk : GuardedFun (String × String) String String :=
  ⟨"send_message", some "Send a message.", false,
    wrapperRun "ask" "raise" "send_message" sampleSend.call⟩

/-- The wrapper guard builds for sampleSend under the single policy allow with
on_deny raise. -/
def sampleSendAllow : GuardedFun (String × String) String String :=
  ⟨"send_message", some "Send a message.", false,
    wrapperRun "allow" "raise" "send_message" sampleSend.call⟩

/-- The wrapper guard builds for sampleTracked under the single policy deny with
on_deny raise. -/
def sampleTrackedDeny : GuardedFun Unit String Nat :=
  ⟨"delete_channel", none, false, wrapperRun "deny" "raise" "delete_channel" sampleTracked.call⟩

/-- The wrapper guard builds for sampleTracked under the default guard_all
policy, the mapping from the star pattern to ask. -/
def sampleTrackedAskDefault : GuardedFun Unit String Nat :=
  ⟨"delete_channel", none, false, wrapperRun "ask" "raise" "delete_channel" sampleTracked.call⟩

/-- The wrapper guard builds for sampleAsync under the single policy deny with
on_deny raise. -/
def sampleAsyncDeny : GuardedFun Unit String String :=
  ⟨"async_delete", some "Delete asynchronously.", true,
    wrapperRun "deny" "raise" "async_delete" sampleAsync.call⟩

lemma resolveLoop_eq_pure (name : String) (m : List (String × String))
    (hv : ∀ pq ∈ m, pq.2 ∈ VALID_POLICIES) (best : String) (bs : Option Nat) :
    resolveLoop name m best bs = Except.ok (resolveLoopPure name m best bs) := by
  induction m generalizing best bs with
  | nil => rfl
  | cons x rest ih =>
    obtain ⟨pattern, pol⟩ := x
    have hx : pol ∈ VALID_POLICIES := hv (pattern, pol) (List.mem_cons_self _ _)
    have hrest : ∀ pq ∈ rest, pq.2 ∈ VALID_POLICIES :=
      fun pq h => hv pq (List.mem_cons_of_mem _ h)
    simp only [resolveLoop, resolveLoopPure]
    rw [if_neg (not_not_intro hx)]
    by_cases hm : fnmatch name pattern = true
    · by_cases hs : specGt (specificity pattern) bs = true
      · simp [hm, hs, ih hrest]
      · simp [hm, hs, ih hrest]
    · simp [hm, ih hrest]

lemma resolveLoopPure_skip (name : String) (m : List (String × String)) (best : String) (s : Nat)
    (h : ∀ pq ∈ m, fnmatch name pq.1 = true → specificity pq.1 ≤ s) :
    resolveLoopPure name m best (some s) = best := by
  induction m generalizing best with
  | nil => rfl
  | cons x rest ih =>
    obtain ⟨pattern, pol⟩ := x
    have hle : fnmatch name pattern = true → specificity pattern ≤ s :=
      h (pattern, pol) (List.mem_cons_self _ _)
    have hcond : ¬ ((fnmatch name pattern && specGt (specificity pattern) (some s)) = true) := by
      by_cases hm : fnmatch name pattern = true
      · have hsle := hle hm
        simp only [hm, Bool.true_and, specGt, decide_eq_true_eq]
        omega
      · simp [hm]
    simp only [resolveLoopPure]
    rw [if_neg hcond]
    exact ih best (fun pq hpq hm => h pq (List.mem_cons_of_mem _ hpq) hm)

lemma resolveLoopPure_wins (name : String) (pre : List (String × String))
    (pattern pol : String) (post : List (String × String)) (best : String) (bs : Option Nat)
    (hmatch : fnmatch name pattern = true)
    (hpre : ∀ pq ∈ pre, fnmatch name pq.1 = true → specificity pq.1 < specificity pattern)
    (hpost : ∀ pq ∈ post, fnmatch name pq.1 = true → specificity pq.1 ≤ specificity pattern)
    (hacc : ∀ b, bs = some b → b < specificity pattern) :
    resolveLoopPure name (pre ++ (pattern, pol) :: post) best bs = pol := by
  induction pre generalizing best bs with
  | nil =>
    have hgt : specGt (specificity pattern) bs = true := by
      cases bs with
      | none => rfl
      | some b => simpa [specGt] using hacc b rfl
    simp only [List.nil_append, resolveLoopPure]
    rw [if_pos (by rw [hmatch, hgt]; rfl)]
    exact resolveLoopPure_skip name post pol (specificity pattern) hpost
  | cons x pre2 ih =>
    obtain ⟨xp, xq⟩ := x
    have hpre2 : ∀ pq ∈ pre2, fnmatch name pq.1 = true → specificity pq.1 < specificity pattern :=
      fun pq hpq hm => hpre pq (List.mem_cons_of_mem _ hpq) hm
    simp only [List.cons_append, resolveLoopPure]
    by_cases hm : fnmatch name xp = true
    · have hlt : specificity xp < specificity pattern :=
        hpre (xp, xq) (List.mem_cons_self _ _) hm
      by_cases hg : specGt (specificity xp) bs = true
      · rw [if_pos (by rw [hm, hg]; rfl)]
        exact ih xq (some (specificity xp)) hpre2 (fun b hb => by cases hb; exact hlt)
      · rw [if_neg (by simp only [hm, Bool.true_and]; exact hg)]
        exact ih best bs hpre2 hacc
    · rw [if_neg (by intro hc; exact hm (Bool.and_eq_true .. |>.mp hc).1)]
      exact ih best bs hpre2 hacc

lemma resolveLoopPure_no_match (name : String) (m : List (String × String)) (best : String)
    (bs : Option Nat) (h : ∀ pq ∈ m, fnmatch name pq.1 = false) :
    resolveLoopPure name m best bs = best := by
  induction m generalizing best bs with
  | nil => rfl
  | cons x rest ih =>
    obtain ⟨pattern, pol⟩ := x
    have hm : fnmatch name pattern = false := h (pattern, pol) (List.mem_cons_self _ _)
    simp only [resolveLoopPure]
    rw [if_neg (by simp [hm])]
    exact ih best bs (fun pq hpq => h pq (List.mem_cons_of_mem _ hpq))

lemma nil_mem_suffixes (l : List Char) : [] ∈ suffixes l := by
  induction l with
  | nil => simp [suffixes]
  | cons c cs ih => simp only [suffixes, List.mem_cons]; exact Or.inr ih

lemma fnmatch_star (name : String) : fnmatch name "*" = true := by
  have hdata : "*".data = ['*'] := rfl
  unfold fnmatch
  rw [hdata]
  simp only [globMatch]
  exact List.any_eq_true.mpr ⟨[], nil_mem_suffixes _, rfl⟩

lemma guard_ok_elim {α ε β : Type} {fn : PyFun α ε β} {policy : PolicySpec} {on_deny : String}
    {g : GuardedFun α ε β} (hg : guard fn policy on_deny = Except.ok g) :
    on_deny ∈ (["raise", "return"] : List String) ∧
      ∃ resolved, _resolve_policy fn.name policy = Except.ok resolved ∧
        g = ⟨fn.name, fn.doc, fn.isCoroutine, wrapperRun resolved on_deny fn.name fn.call⟩ := by
  by_cases hod : on_deny ∈ (["raise", "return"] : List String)
  · refine ⟨hod, ?_⟩
    rw [guard, if_neg (not_not_intro hod)] at hg
    cases hres : _resolve_policy fn.name policy with
    | error e => rw [hres] at hg; cases hg
    | ok r =>
      rw [hres] at hg
      injection hg with h
      exact ⟨r, rfl, h.symm⟩
  · rw [guard, if_pos hod] at hg
    cases hg

lemma wrapperRun_deny {α ε β : Type} (on_deny name : String) (call : α → Except ε β)
    (ask : String → α → Bool) (a : α) :
    wrapperRun "deny" on_deny name call ask a = ([], deniedOutcome on_deny name "policy") := rfl

lemma wrapperRun_ask {α ε β : Type} (on_deny name : String) (call : α → Except ε β)
    (ask : String → α → Bool) (a : α) :
    wrapperRun "ask" on_deny name call ask a =
      if ask name a then ([Event.askHuman name a, Event.invoke a], liftResult (call a))
      else ([Event.askHuman name a], deniedOutcome on_deny name "human") := by
  unfold wrapperRun
  cases hask : ask name a with
  | true => rfl
  | false => rfl

lemma wrapperRun_allow {α ε β : Type} (on_deny name : String) (call : α → Except ε β)
    (ask : String → α → Bool) (a : α) :
    wrapperRun "allow" on_deny name call ask a = ([Event.invoke a], liftResult (call a)) := rfl

lemma deniedOutcome_raise {ε β : Type} (name reason : String) :
    (deniedOutcome "raise" name reason : Outcome ε β) =
      Outcome.raisedDenied (deniedMessage name reason) := rfl

lemma deniedOutcome_return {ε β : Type} (name reason : String) :
    (deniedOutcome "return" name reason : Outcome ε β) =
      Outcome.deniedReturn (deniedMessage name reason) := rfl

lemma guardList_ok_pointwise {α ε β : Type} {policy : PolicySpec}
    {fns : List (PyFun α ε β)} {gs : List (GuardedFun α ε β)}
    (h : guardList policy fns = Except.ok gs) :
    gs.length = fns.length ∧
      ∀ i (h1 : i < fns.length) (h2 : i < gs.length),
        guard (fns.get ⟨i, h1⟩) policy "raise" = Except.ok (gs.get ⟨i, h2⟩) := by
  induction fns generalizing gs with
  | nil =>
    simp only [guardList] at h
    injection h with h
    subst h
    exact ⟨rfl, fun i h1 h2 => absurd h1 (Nat.not_lt_zero i)⟩
  | cons fn rest ih =>
    simp only [guardList] at h
    cases hg : guard fn policy "raise" with
    | error e => rw [hg] at h; cases h
    | ok g =>
      rw [hg] at h
      cases hr : guardList policy rest with
      | error e => rw [hr] at h; cases h
      | ok grest =>
        rw [hr] at h
        injection h with h
        subst h
        obtain ⟨hlen, hpt⟩ := ih hr
        refine ⟨by simp [hlen], ?_⟩
        intro i h1 h2
        cases i with
        | zero => simpa using hg
        | succ j => exact hpt j (Nat.lt_of_succ_lt_succ h1) (Nat.lt_of_succ_lt_succ h2)

lemma guardList_ok_mem {α ε β : Type} {policy : PolicySpec}
    {fns : List (PyFun α ε β)} {gs : List (GuardedFun α ε β)}
    (h : guardList policy fns = Except.ok gs) {g : GuardedFun α ε β} (hmem : g ∈ gs) :
    ∃ fn, fn ∈ fns ∧ guard fn policy "raise" = Except.ok g := by
  induction fns generalizing gs with
  | nil =>
    simp only [guardList] at h
    injection h with h
    subst h
    cases hmem
  | cons fn rest ih =>
    simp only [guardList] at h
    cases hg : guard fn policy "raise" with
    | error e => rw [hg] at h; cases h
    | ok g0 =>
      rw [hg] at h
      cases hr : guardList policy rest with
      | error e => rw [hr] at h; cases h
      | ok grest =>
        rw [hr] at h
        injection h with h
        subst h
        rcases List.mem_cons.mp hmem with heq | hmem2
        · exact ⟨fn, List.mem_cons_self _ _, heq ▸ hg⟩
        · obtain ⟨fn2, hfn2, hg2⟩ := ih hr hmem2
          exact ⟨fn2, List.mem_cons_of_mem _ hfn2, hg2⟩

lemma wrapperRun_raise_not_denied_return {α ε β : Type} (resolved name : String)
    (call : α → Except ε β) (ask : String → α → Bool) (a : α) (msg : String) :
    (wrapperRun resolved "raise" name call ask a).2 ≠ Outcome.deniedReturn msg := by
  unfold wrapperRun
  by_cases h1 : (resolved == "deny") = true
  · rw [if_pos h1]
    intro hc
    rw [show (([], deniedOutcome "raise" name "policy") :
        List (Event α) × Outcome ε β).2 = deniedOutcome "raise" name "policy" from rfl,
      deniedOutcome_raise] at hc
    cases hc
  · rw [if_neg h1]
    by_cases h2 : (resolved == "ask" && !(ask name a)) = true
    · rw [if_pos h2]
      intro hc
      rw [show (([Event.askHuman name a], deniedOutcome "raise" name "human") :
          List (Event α) × Outcome ε β).2 = deniedOutcome "raise" name "human" from rfl,
        deniedOutcome_raise] at hc
      cases hc
    · rw [if_neg h2]
      intro hc
      simp only at hc
      cases hcall : call a with
      | ok b => rw [hcall] at hc; cases hc
      | error e => rw [hcall] at hc; cases hc

lemma resolveLoop_invalid (name : String) (m : List (String × String)) (best : String)
    (bs : Option Nat) (h : ∃ pq ∈ m, pq.2 ∉ VALID_POLICIES) :
    ∃ pattern pol, (pattern, pol) ∈ m ∧ pol ∉ VALID_POLICIES ∧
      resolveLoop name m best bs =
        Except.error ("Invalid policy " ++ pol ++ " for pattern " ++ pattern) := by
  induction m generalizing best bs with
  | nil =>
    obtain ⟨pq, hpq, _⟩ := h
    cases hpq
  | cons x rest ih =>
    obtain ⟨xp, xq⟩ := x
    by_cases hx : xq ∈ VALID_POLICIES
    · have hrest : ∃ pq ∈ rest, pq.2 ∉ VALID_POLICIES := by
        obtain ⟨pq, hpq, hbad⟩ := h
        rcases List.mem_cons.mp hpq with heq | hm2
        · rw [heq] at hbad
          exact absurd hx hbad
        · exact ⟨pq, hm2, hbad⟩
      simp only [resolveLoop]
      rw [if_neg (not_not_intro hx)]
      by_cases hm : fnmatch name xp = true
      · rw [if_pos hm]
        by_cases hs : specGt (specificity xp) bs = true
        · rw [if_pos hs]
          obtain ⟨pattern, pol, hmem, hbad, herr⟩ := ih xq (some (specificity xp)) hrest
          exact ⟨pattern, pol, List.mem_cons_of_mem _ hmem, hbad, herr⟩
        · rw [if_neg hs]
          obtain ⟨pattern, pol, hmem, hbad, herr⟩ := ih best bs hrest
          exact ⟨pattern, pol, List.mem_cons_of_mem _ hmem, hbad, herr⟩
      · rw [if_neg hm]
        obtain ⟨pattern, pol, hmem, hbad, herr⟩ := ih best bs hrest
        exact ⟨pattern, pol, List.mem_cons_of_mem _ hmem, hbad, herr⟩
    · refine ⟨xp, xq, List.mem_cons_self _ _, hx, ?_⟩
      simp only [resolveLoop]
      rw [if_pos hx]

/-- C4: guard fails at construction time, before the wrapper exists. An invalid
single policy yields the invalid-policy ValueError; a mapping containing any
invalid value, even under a pattern that does not match the operation name,
yields the invalid-policy ValueError for some offending pair (validation is
exhaustive over the mapping, not lazy per match); an invalid on_deny yields the
invalid-configuration ValueError. In the first two cases construction fails for
every on_deny, valid or not. -/
theorem guard_construction_validation {α ε β : Type} :
    (∀ (fn : PyFun α ε β) (p : String) (on_deny : String), p ∉ VALID_POLICIES →
      (∃ e, guard fn (PolicySpec.single p) on_deny = Except.error e) ∧
      (on_deny ∈ (["raise", "return"] : List String) →
        guard fn (PolicySpec.single p) on_deny = Except.error ("Invalid policy " ++ p))) ∧
    (∀ (fn : PyFun α ε β) (m : List (String × String)) (on_deny : String),
      (∃ pq ∈ m, pq.2 ∉ VALID_POLICIES) →
      (∃ e, guard fn (PolicySpec.mapping m) on_deny = Except.error e) ∧
      (on_deny ∈ (["raise", "return"] : List String) →
        ∃ pattern pol, (pattern, pol) ∈ m ∧ pol ∉ VALID_POLICIES ∧
          guard fn (PolicySpec.mapping m) on_deny =
            Except.error ("Invalid policy " ++ pol ++ " for pattern " ++ pattern))) ∧
    (∀ (fn : PyFun α ε β) (policy : PolicySpec) (on_deny : String),
      on_deny ∉ (["raise", "return"] : List String) →
      guard fn policy on_deny = Except.error ("Invalid on_deny " ++ on_deny)) := by
  have hbad : ∀ (fn : PyFun α ε β) (policy : PolicySpec) (on_deny : String),
      on_deny ∉ (["raise", "return"] : List String) →
      guard fn policy on_deny = Except.error ("Invalid on_deny " ++ on_deny) := by
    intro fn policy on_deny hod
    rw [guard, if_pos hod]
  have hsingle : ∀ (fn : PyFun α ε β) (p : String) (on_deny : String), p ∉ VALID_POLICIES →
      on_deny ∈ (["raise", "return"] : List String) →
      guard fn (PolicySpec.single p) on_deny = Except.error ("Invalid policy " ++ p) := by
    intro fn p on_deny hp hod
    have hres : _resolve_policy fn.name (PolicySpec.single p) =
        Except.error ("Invalid policy " ++ p) := by
      show (if p ∉ VALID_POLICIES then _ else _) = _
      rw [if_pos hp]
    rw [guard, if_neg (not_not_intro hod), hres]
  have hmap : ∀ (fn : PyFun α ε β) (m : List (String × String)) (on_deny : String),
      (∃ pq ∈ m, pq.2 ∉ VALID_POLICIES) →
      on_deny ∈ (["raise", "return"] : List String) →
      ∃ pattern pol, (pattern, pol) ∈ m ∧ pol ∉ VALID_POLICIES ∧
        guard fn (PolicySpec.mapping m) on_deny =
          Except.error ("Invalid policy " ++ pol ++ " for pattern " ++ pattern) := by
    intro fn m on_deny hm hod
    obtain ⟨pattern, pol, hmem, hbadpol, herr⟩ := resolveLoop_invalid fn.name m "deny" none hm
    refine ⟨pattern, pol, hmem, hbadpol, ?_⟩
    have hres : _resolve_policy fn.name (PolicySpec.mapping m) =
        Except.error ("Invalid policy " ++ pol ++ " for pattern " ++ pattern) := herr
    rw [guard, if_neg (not_not_intro hod), hres]
  refine ⟨fun fn p on_deny hp => ⟨?_, hsingle fn p on_deny hp⟩,
    fun fn m on_deny hm => ⟨?_, hmap fn m on_deny hm⟩, hbad⟩
  · by_cases hod : on_deny ∈ (["raise", "return"] : List String)
    · exact ⟨"Invalid policy " ++ p, hsingle fn p on_deny hp hod⟩
    · exact ⟨"Invalid on_deny " ++ on_deny, hbad fn (PolicySpec.single p) on_deny hod⟩
  · by_cases hod : on_deny ∈ (["raise", "return"] : List String)
    · obtain ⟨pattern, pol, _, _, herr⟩ := hmap fn m on_deny hm hod
      exact ⟨"Invalid policy " ++ pol ++ " for pattern " ++ pattern, herr⟩
    · exact ⟨"Invalid on_deny " ++ on_deny, hbad fn (PolicySpec.mapping m) on_deny hod⟩

/-- C4 witness: an invalid single policy, a mapping with an invalid value, and an
invalid on_deny each fail at construction with the corresponding error. -/
theorem guard_construction_validation_witness :
    guard sampleTracked (PolicySpec.single "yolo") "raise" =
        Except.error ("Invalid policy " ++ "yolo") ∧
      (∃ pattern pol, (pattern, pol) ∈ [("nomatch_*", "yolo")] ∧ pol ∉ VALID_POLICIES ∧
        guard sampleTracked (PolicySpec.mapping [("nomatch_*", "yolo")]) "raise" =
          Except.error ("Invalid policy " ++ pol ++ " for pattern " ++ pattern)) ∧
      guard sampleTracked (PolicySpec.single "deny") "explode" =
        Except.error ("Invalid on_deny " ++ "explode") := by
  have h := @guard_construction_validation Unit String Nat
  refine ⟨(h.1 sampleTracked "yolo" "raise" (by decide)).2 (by decide), ?_,
    h.2.2 sampleTracked (PolicySpec.single "deny") "explode" (by decide)⟩
  exact (h.2.1 sampleTracked [("nomatch_*", "yolo")] "raise"
    ⟨("nomatch_*", "yolo"), by decide⟩).2 (by decide)

/-- C1: for every operation whose resolved policy is deny, every call to the
wrapper guard builds short-circuits: the original operation is never invoked
(the trace records zero invocations) and the outcome is the denial outcome
tagged policy. The operation fn ranges over immediate and suspending operations
alike (both values of isCoroutine), and the wrapper body is shared by the two
variants, so this covers both. -/
theorem guard_deny_short_circuits {α ε β : Type} (fn : PyFun α ε β) (policy : PolicySpec)
    (on_deny : String) (g : GuardedFun α ε β) (hg : guard fn policy on_deny = Except.ok g)
    (hr : _resolve_policy fn.name policy = Except.ok "deny")
    (ask : String → α → Bool) (a : α) :
    g.run ask a = ([], deniedOutcome on_deny fn.name "policy") ∧
      invokeCount (g.run ask a).1 = 0 := by
  obtain ⟨hod, resolved, hres, hgdef⟩ := guard_ok_elim hg
  rw [hres] at hr
  injection hr with hr
  subst hr
  subst hgdef
  exact ⟨rfl, rfl⟩

/-- C1 witness: a tracked operation wrapped under deny is never invoked and the
call produces the policy denial. -/
theorem guard_deny_short_circuits_witness :
    guard sampleTracked (PolicySpec.single "deny") "raise" = Except.ok sampleTrackedDeny ∧
      sampleTrackedDeny.run (fun _ _ => true) () =
        ([], deniedOutcome "raise" "delete_channel" "policy") ∧
      invokeCount (sampleTrackedDeny.run (fun _ _ => true) ()).1 = 0 :=
  ⟨rfl,
    guard_deny_short_circuits sampleTracked (PolicySpec.single "deny") "raise"
      sampleTrackedDeny rfl rfl (fun _ _ => true) ()⟩

/-- C2: for a pattern mapping whose values are all valid policies, the resolver
returns the policy of the glob-matching pattern with the greatest count of
non-wildcard characters; on equal specificity the first matching pattern in
iteration order wins. The winning entry is singled out by splitting the mapping
around it: every earlier matching pattern is strictly less specific and every
matching pattern anywhere is at most as specific. -/
theorem resolve_most_specific_wins (name : String) (pre : List (String × String))
    (pattern pol : String) (post : List (String × String))
    (hv : ∀ pq ∈ pre ++ (pattern, pol) :: post, pq.2 ∈ VALID_POLICIES)
    (hmatch : fnmatch name pattern = true)
    (hpre : ∀ pq ∈ pre, fnmatch name pq.1 = true → specificity pq.1 < specificity pattern)
    (hpost : ∀ pq ∈ post, fnmatch name pq.1 = true → specificity pq.1 ≤ specificity pattern) :
    _resolve_policy name (PolicySpec.mapping (pre ++ (pattern, pol) :: post)) = Except.ok pol := by
  show resolveLoop name (pre ++ (pattern, pol) :: post) "deny" none = Except.ok pol
  rw [resolveLoop_eq_pure name _ hv "deny" none]
  rw [resolveLoopPure_wins name pre pattern pol post "deny" none hmatch hpre hpost
    (fun b hb => Option.noConfusion hb)]

/-- C2 witness: the exact pattern delete_channel beats delete_* and the
catch-all star for the name delete_channel. -/
theorem resolve_most_specific_wins_witness :
    _resolve_policy "delete_channel"
      (PolicySpec.mapping [("delete_*", "deny"), ("delete_channel", "allow"), ("*", "allow")]) =
      Except.ok "allow" :=
  resolve_most_specific_wins "delete_channel" [("delete_*", "deny")] "delete_channel" "allow"
    [("*", "allow")] (by decide) (by decide) (by decide) (by decide)

/-- C3: for a pattern mapping whose values are all valid policies and in which
no pattern glob-matches the name, the resolver returns the fail-closed default
deny. -/
theorem resolve_no_match_defaults_deny (name : String) (m : List (String × String))
    (hv : ∀ pq ∈ m, pq.2 ∈ VALID_POLICIES)
    (hnone : ∀ pq ∈ m, fnmatch name pq.1 = false) :
    _resolve_policy name (PolicySpec.mapping m) = Except.ok "deny" := by
  show resolveLoop name m "deny" none = Except.ok "deny"
  rw [resolveLoop_eq_pure name m hv "deny" none,
    resolveLoopPure_no_match name m "deny" none hnone]

/-- C3 witness: the mapping sending send_* to allow resolves the name
read_messages to deny. -/
theorem resolve_no_match_defaults_deny_witness :
    _resolve_policy "read_messages" (PolicySpec.mapping [("send_*", "allow")]) =
      Except.ok "deny" :=
  resolve_no_match_defaults_deny "read_messages" [("send_*", "allow")] (by decide) (by decide)

/-- C5: for every operation whose resolved policy is ask, each call to the
wrapper consults the approval collaborator exactly once, passing the operation
name and the exact call arguments (the trace's consultation events are exactly
one event carrying both). If the collaborator answers true the call delegates
to the original operation, which is invoked exactly once, and the outcome is
the unwrapped call's result; if it answers false the call short-circuits with
the denial outcome tagged human and the original operation is never invoked. -/
theorem guard_ask_behavior {α ε β : Type} (fn : PyFun α ε β) (policy : PolicySpec)
    (on_deny : String) (g : GuardedFun α ε β) (hg : guard fn policy on_deny = Except.ok g)
    (hr : _resolve_policy fn.name policy = Except.ok "ask")
    (ask : String → α → Bool) (a : α) :
    askEvents (g.run ask a).1 = [Event.askHuman fn.name a] ∧
      (ask fn.name a = true →
        (g.run ask a).2 = liftResult (fn.call a) ∧ invokeCount (g.run ask a).1 = 1) ∧
      (ask fn.name a = false →
        (g.run ask a).2 = deniedOutcome on_deny fn.name "human" ∧
          invokeCount (g.run ask a).1 = 0) := by
  obtain ⟨hod, resolved, hres, hgdef⟩ := guard_ok_elim hg
  rw [hres] at hr
  injection hr with hr
  subst hr
  subst hgdef
  have hrun : (GuardedFun.mk fn.name fn.doc fn.isCoroutine
      (wrapperRun "ask" on_deny fn.name fn.call)).run ask a =
      if ask fn.name a then
        ([Event.askHuman fn.name a, Event.invoke a], liftResult (fn.call a))
      else ([Event.askHuman fn.name a], deniedOutcome on_deny fn.name "human") :=
    wrapperRun_ask on_deny fn.name fn.call ask a
  rw [hrun]
  cases hask : ask fn.name a with
  | true => exact ⟨rfl, fun _ => ⟨rfl, rfl⟩, fun hc => Bool.noConfusion hc⟩
  | false => exact ⟨rfl, fun hc => Bool.noConfusion hc, fun _ => ⟨rfl, rfl⟩⟩

/-- C5 witness: under ask with an approving collaborator, send_message is asked
about exactly once with its arguments, and the call result is the unwrapped
result; the original operation runs once. -/
theorem guard_ask_behavior_witness :
    askEvents ((sampleSendAsk.run (fun _ _ => true) ("general", "hi")).1) =
        [Event.askHuman "send_message" ("general", "hi")] ∧
      (sampleSendAsk.run (fun _ _ => true) ("general", "hi")).2 =
        liftResult (sampleSend.call ("general", "hi")) ∧
      invokeCount ((sampleSendAsk.run (fun _ _ => true) ("general", "hi")).1) = 1 := by
  have h := guard_ask_behavior sampleSend (PolicySpec.single "ask") "raise" sampleSendAsk
    rfl rfl (fun _ _ => true) ("general", "hi")
  exact ⟨h.1, (h.2.1 rfl).1, (h.2.1 rfl).2⟩

/-- C6: for every operation whose resolved policy is allow, calling the wrapper
is equivalent to calling the original operation: the operation is invoked with
the call's arguments and without any collaborator consultation, a normal result
is returned unchanged, and a failure raised by the operation propagates
unchanged. -/
theorem guard_allow_transparent {α ε β : Type} (fn : PyFun α ε β) (policy : PolicySpec)
    (on_deny : String) (g : GuardedFun α ε β) (hg : guard fn policy on_deny = Except.ok g)
    (hr : _resolve_policy fn.name policy = Except.ok "allow")
    (ask : String → α → Bool) (a : α) :
    (g.run ask a).1 = [Event.invoke a] ∧
      (g.run ask a).2 = liftResult (fn.call a) ∧
      (∀ b, fn.call a = Except.ok b → (g.run ask a).2 = Outcome.ok b) ∧
      (∀ e, fn.call a = Except.error e → (g.run ask a).2 = Outcome.raised e) := by
  obtain ⟨hod, resolved, hres, hgdef⟩ := guard_ok_elim hg
  rw [hres] at hr
  injection hr with hr
  subst hr
  subst hgdef
  refine ⟨rfl, rfl, fun b hb => ?_, fun e he => ?_⟩
  · show liftResult (fn.call a) = Outcome.ok b
    rw [hb]
    rfl
  · show liftResult (fn.call a) = Outcome.raised e
    rw [he]
    rfl

/-- C6 witness: under allow, the wrapped send_message returns exactly the
unwrapped result of the same call. -/
theorem guard_allow_transparent_witness :
    (sampleSendAllow.run (fun _ _ => false) ("general", "hello")).1 =
        [Event.invoke ("general", "hello")] ∧
      (sampleSendAllow.run (fun _ _ => false) ("general", "hello")).2 =
        liftResult (sampleSend.call ("general", "hello")) ∧
      (sampleSendAllow.run (fun _ _ => false) ("general", "hello")).2 =
        Outcome.ok "sent to general: hello" := by
  have h := guard_allow_transparent sampleSend (PolicySpec.single "allow") "raise"
    sampleSendAllow rfl rfl (fun _ _ => false) ("general", "hello")
  exact ⟨h.1, h.2.1, h.2.2.1 "sent to general: hello" rfl⟩

/-- C7: a denied call materializes by on_deny, with reason policy or human: with
on_deny raise an AgentPrivDenied failure carrying the message Call to name()
denied by reason is raised; with on_deny return that same descriptive string,
identifying the operation name and the denial tag, becomes the call's ordinary
result value instead of a failure. -/
theorem denied_materialization {ε β : Type} (name reason : String)
    (_h : reason = "policy" ∨ reason = "human") :
    (deniedOutcome "raise" name reason : Outcome ε β) =
        Outcome.raisedDenied ("Call to " ++ name ++ "() denied by " ++ reason) ∧
      (deniedOutcome "return" name reason : Outcome ε β) =
        Outcome.deniedReturn ("Call to " ++ name ++ "() denied by " ++ reason) :=
  ⟨deniedOutcome_raise name reason, deniedOutcome_return name reason⟩

/-- C7 witness: the policy denial of delete_channel raises with, or returns, the
message Call to delete_channel() denied by policy. -/
theorem denied_materialization_witness :
    (deniedOutcome "raise" "delete_channel" "policy" : Outcome String Nat) =
        Outcome.raisedDenied "Call to delete_channel() denied by policy" ∧
      (deniedOutcome "return" "delete_channel" "policy" : Outcome String Nat) =
        Outcome.deniedReturn "Call to delete_channel() denied by policy" :=
  denied_materialization "delete_channel" "policy" (Or.inl rfl)

/-- C8: the wrapper produced by guard exposes the same name and documentation as
the original operation and keeps its invocation contract: the wrapper is
suspending exactly when the operation is. Under deny the wrapper's resolved
result is the same denial behavior in both variants: the run semantics, shared
by the suspending and immediate wrapper bodies, yields the policy denial
without depending on isCoroutine. -/
theorem guard_preserves_identity {α ε β : Type} (fn : PyFun α ε β) (policy : PolicySpec)
    (on_deny : String) (g : GuardedFun α ε β) (hg : guard fn policy on_deny = Except.ok g) :
    g.name = fn.name ∧ g.doc = fn.doc ∧ g.isCoroutine = fn.isCoroutine ∧
      (_resolve_policy fn.name policy = Except.ok "deny" →
        ∀ (ask : String → α → Bool) (a : α),
          g.run ask a = ([], deniedOutcome on_deny fn.name "policy")) := by
  obtain ⟨hod, resolved, hres, hgdef⟩ := guard_ok_elim hg
  subst hgdef
  refine ⟨rfl, rfl, rfl, ?_⟩
  intro hdeny ask a
  rw [hres] at hdeny
  injection hdeny with hdeny
  subst hdeny
  rfl

/-- C8 witness: wrapping the suspending async_delete under deny preserves name,
docstring and coroutine-ness, and its resolved result is the policy denial,
matching the immediate case. -/
theorem guard_preserves_identity_witness :
    sampleAsyncDeny.name = sampleAsync.name ∧ sampleAsyncDeny.doc = sampleAsync.doc ∧
      sampleAsyncDeny.isCoroutine = sampleAsync.isCoroutine ∧
      sampleAsyncDeny.run (fun _ _ => true) () =
        ([], deniedOutcome "raise" "async_delete" "policy") := by
  have h := guard_preserves_identity sampleAsync (PolicySpec.single "deny") "raise"
    sampleAsyncDeny rfl
  exact ⟨h.1, h.2.1, h.2.2.1, h.2.2.2 rfl (fun _ _ => true) ()⟩

/-- C9: guard_all returns a list of the same length in the same order whose
entry at each index is guard applied to the operation at that index under the
shared policy specification with guard's default on_deny; a missing
specification defaults to the mapping from the star pattern to ask, and under
that default every operation name resolves to ask, so every wrapper in the
result requires approval. -/
theorem guard_all_applies_guard {α ε β : Type} :
    (∀ (fns : List (PyFun α ε β)) (p : PolicySpec) (gs : List (GuardedFun α ε β)),
      guard_all fns (some p) = Except.ok gs →
        gs.length = fns.length ∧
          ∀ i (h1 : i < fns.length) (h2 : i < gs.length),
            guard (fns.get ⟨i, h1⟩) p "raise" = Except.ok (gs.get ⟨i, h2⟩)) ∧
    (∀ fns : List (PyFun α ε β),
      guard_all fns none = guard_all fns (some (PolicySpec.mapping [("*", "ask")]))) ∧
    (∀ name, _resolve_policy name (PolicySpec.mapping [("*", "ask")]) = Except.ok "ask") := by
  refine ⟨fun fns p gs h => guardList_ok_pointwise h, fun fns => rfl, fun name => ?_⟩
  show resolveLoop name [("*", "ask")] "deny" none = Except.ok "ask"
  simp only [resolveLoop]
  rw [if_neg (by decide), if_pos (fnmatch_star name)]
  rfl

/-- C9 witness: guard_all on a one-element list under the default specification
produces one wrapper, equal to guard of that operation under the star-to-ask
mapping, whose resolved policy is ask. -/
theorem guard_all_applies_guard_witness :
    ([sampleTrackedAskDefault] : List (GuardedFun Unit String Nat)).length =
        [sampleTracked].length ∧
      guard sampleTracked (PolicySpec.mapping [("*", "ask")]) "raise" =
        Except.ok sampleTrackedAskDefault ∧
      guard_all [sampleTracked] none =
        guard_all [sampleTracked] (some (PolicySpec.mapping [("*", "ask")])) ∧
      _resolve_policy "delete_channel" (PolicySpec.mapping [("*", "ask")]) =
        Except.ok "ask" := by
  have h := @guard_all_applies_guard Unit String Nat
  have h1 := h.1 [sampleTracked] (PolicySpec.mapping [("*", "ask")])
    [sampleTrackedAskDefault] rfl
  exact ⟨h1.1, h1.2 0 (by decide) (by decide), h.2.1 [sampleTracked],
    h.2.2 "delete_channel"⟩

/-- C10: guard_all passes no denial mode, so every wrapper it produces comes
from guard with the default on_deny raise; a denial of such a wrapper always
raises AgentPrivDenied and its call outcome can never be the sentinel string
result that on_deny return would produce. -/
theorem guard_all_denials_raise {α ε β : Type} (fns : List (PyFun α ε β))
    (policy : Option PolicySpec) (gs : List (GuardedFun α ε β))
    (hg : guard_all fns policy = Except.ok gs) (g : GuardedFun α ε β) (hmem : g ∈ gs)
    (ask : String → α → Bool) (a : α) (msg : String) :
    (∃ fn, fn ∈ fns ∧ guard fn (defaultedPolicy policy) "raise" = Except.ok g) ∧
      (g.run ask a).2 ≠ Outcome.deniedReturn msg := by
  unfold guard_all at hg
  have hmem2 := guardList_ok_mem hg hmem
  refine ⟨hmem2, ?_⟩
  obtain ⟨fn, hfn, hfng⟩ := hmem2
  obtain ⟨hod, resolved, hres, hgdef⟩ := guard_ok_elim hfng
  subst hgdef
  exact wrapperRun_raise_not_denied_return resolved fn.name fn.call ask a msg

/-- C10 witness: the wrapper guard_all builds for a denied operation comes from
guard with on_deny raise, and its call outcome is not a sentinel denial
string. -/
theorem guard_all_denials_raise_witness :
    (∃ fn, fn ∈ [sampleTracked] ∧
        guard fn (defaultedPolicy (some (PolicySpec.single "deny"))) "raise" =
          Except.ok sampleTrackedDeny) ∧
      (sampleTrackedDeny.run (fun _ _ => true) ()).2 ≠ Outcome.deniedReturn "nope" :=
  guard_all_denials_raise [sampleTracked] (some (PolicySpec.single "deny"))
    [sampleTrackedDeny] rfl sampleTrackedDeny (List.mem_cons_self _ _)
    (fun _ _ => true) () "nope"

end AgentPriv
